import Mathlib

set_option maxHeartbeats 1000000

/-!
Verification development for the secure-chat backend (FastAPI + SQLAlchemy).

The embedding covers:
 - the JSON payload model used by the message endpoints (the stdlib
   calls json.dumps / json.loads are modelled by jdump / loads below,
   with numbers restricted to integers and unicode escapes omitted);
 - the connection registry of websocket.py (a Python dict from user id
   to websocket handle, modelled as an in-order association list);
 - the users / messages tables of models.py and the chat endpoints of
   main.py (send_message, get_messages, the last-message display of
   get_users), with database timestamps modelled by a monotone counter.
-/

/-- JSON values.  The payload union of MessageRequest.message in main.py is
text or a dict whose entries carry JSON values; numbers are modelled as
integers (floating point is out of scope of the embedding). -/
inductive Json where
  | null : Json
  | bool (b : Bool) : Json
  | num (n : Int) : Json
  | str (s : String) : Json
  | arr (xs : List Json) : Json
  | obj (fields : List (String × Json)) : Json

/-- Decimal digit characters. -/
def digitChar : Nat → Char
  | 0 => '0'
  | 1 => '1'
  | 2 => '2'
  | 3 => '3'
  | 4 => '4'
  | 5 => '5'
  | 6 => '6'
  | 7 => '7'
  | 8 => '8'
  | _ => '9'

/-- Fuelled accumulator loop producing the decimal digits of a natural
number, most significant first. -/
def natDigitsAux : Nat → Nat → List Char → List Char
  | 0, _, acc => acc
  | fuel + 1, n, acc =>
    if n < 10 then digitChar n :: acc
    else natDigitsAux fuel (n / 10) (digitChar (n % 10) :: acc)

/-- Decimal representation of a natural number. -/
def natRepr (n : Nat) : List Char := natDigitsAux (n + 1) n []

/-- Decimal representation of an integer, a minus sign for negatives;
models the textual form Python's json module emits for ints. -/
def intRepr : Int → List Char
  | Int.ofNat n => natRepr n
  | Int.negSucc m => '-' :: natRepr (m + 1)

/-- Escaping of one character inside a JSON string literal. -/
def escapeChar (c : Char) : List Char :=
  if c = '"' then ['\\', '"']
  else if c = '\\' then ['\\', '\\']
  else if c = '\n' then ['\\', 'n']
  else if c = '\t' then ['\\', 't']
  else if c = '\r' then ['\\', 'r']
  else [c]

/-- Escaping of a JSON string body. -/
def escList : List Char → List Char
  | [] => []
  | c :: cs => escapeChar c ++ escList cs

mutual
/-- Serialisation of a JSON value; models json.dumps with its default
separators (a comma-space between items, a colon-space after keys). -/
def jdump : Json → List Char
  | Json.null => ['n', 'u', 'l', 'l']
  | Json.bool true => ['t', 'r', 'u', 'e']
  | Json.bool false => ['f', 'a', 'l', 's', 'e']
  | Json.num n => intRepr n
  | Json.str s => ('"' :: escList s.data) ++ ['"']
  | Json.arr xs => ('[' :: jdumpElems xs) ++ [']']
  | Json.obj fs => ('\x7b' :: jdumpFields fs) ++ ['\x7d']

/-- Serialisation of array elements, comma-space separated. -/
def jdumpElems : List Json → List Char
  | [] => []
  | x :: xs => jdump x ++ (if xs.isEmpty then [] else ',' :: ' ' :: jdumpElems xs)

/-- Serialisation of object members, comma-space separated. -/
def jdumpFields : List (String × Json) → List Char
  | [] => []
  | (k, v) :: fs =>
    (('"' :: escList k.data) ++ ('"' :: ':' :: ' ' :: jdump v)) ++
      (if fs.isEmpty then [] else ',' :: ' ' :: jdumpFields fs)
end

/-- The canonical textual form a structured payload is stored under. -/
def dumps (v : Json) : String := String.mk (jdump v)

/-- Whitespace recognised between JSON tokens. -/
def isWsChar (c : Char) : Bool := c = ' ' || c = '\n' || c = '\t' || c = '\r'

/-- Decimal digit test. -/
def isDigitChar (c : Char) : Bool := 48 ≤ c.toNat && c.toNat ≤ 57

/-- Numeric value of a digit character. -/
def digitVal (c : Char) : Nat := c.toNat - 48

/-- Skip leading whitespace. -/
def skipWs : List Char → List Char
  | [] => []
  | c :: cs => if isWsChar c then skipWs cs else c :: cs

/-- Match an expected literal character sequence. -/
def expectChars : List Char → List Char → Option (List Char)
  | [], cs => some cs
  | _ :: _, [] => none
  | e :: es, c :: cs => if c = e then expectChars es cs else none

/-- Un-escaping of one escaped character inside a JSON string literal. -/
def unescapeChar (e : Char) : Option Char :=
  if e = '"' then some '"'
  else if e = '\\' then some '\\'
  else if e = '/' then some '/'
  else if e = 'n' then some '\n'
  else if e = 't' then some '\t'
  else if e = 'r' then some '\r'
  else if e = 'b' then some (Char.ofNat 8)
  else if e = 'f' then some (Char.ofNat 12)
  else none

/-- Parse a JSON string body up to the closing quote; returns the decoded
characters and the input following the closing quote. -/
def parseStringBody : List Char → Option (List Char × List Char)
  | [] => none
  | c :: cs =>
    if c = '"' then some ([], cs)
    else if c = '\\' then
      match cs with
      | [] => none
      | e :: cs2 =>
        match unescapeChar e with
        | none => none
        | some u => (parseStringBody cs2).map (fun p => (u :: p.1, p.2))
    else (parseStringBody cs).map (fun p => (c :: p.1, p.2))

/-- Take the maximal run of leading digits. -/
def parseDigits : List Char → List Char × List Char
  | [] => ([], [])
  | c :: cs =>
    if isDigitChar c then
      match parseDigits cs with
      | (ds, rest) => (c :: ds, rest)
    else ([], c :: cs)

/-- Accumulating decimal evaluation of a digit list. -/
def digitsToNatAux : Nat → List Char → Nat
  | acc, [] => acc
  | acc, c :: cs => digitsToNatAux (acc * 10 + digitVal c) cs

/-- Decimal value of a digit list. -/
def digitsToNat (ds : List Char) : Nat := digitsToNatAux 0 ds

/-- Parse a natural number literal. -/
def parseNatNum (cs : List Char) : Option (Nat × List Char) :=
  match parseDigits cs with
  | (ds, rest) => if ds.isEmpty then none else some (digitsToNat ds, rest)

/-- Intermediate parse results: a value, an element list with its closing
bracket consumed, or a member list with its closing brace consumed. -/
inductive PRes where
  | rv : Json → List Char → PRes
  | rl : List Json → List Char → PRes
  | rf : List (String × Json) → List Char → PRes

/-- One step of the value grammar; the two arguments recurse into the
element and member grammars. -/
def pVal (recElems recFields : List Char → Option PRes) (cs : List Char) :
    Option PRes :=
  match skipWs cs with
  | [] => none
  | c :: rest =>
    if c = 'n' then
      match expectChars ['u', 'l', 'l'] rest with
      | none => none
      | some r => some (PRes.rv Json.null r)
    else if c = 't' then
      match expectChars ['r', 'u', 'e'] rest with
      | none => none
      | some r => some (PRes.rv (Json.bool true) r)
    else if c = 'f' then
      match expectChars ['a', 'l', 's', 'e'] rest with
      | none => none
      | some r => some (PRes.rv (Json.bool false) r)
    else if c = '"' then
      match parseStringBody rest with
      | none => none
      | some p => some (PRes.rv (Json.str (String.mk p.1)) p.2)
    else if c = '[' then
      match skipWs rest with
      | [] => none
      | d :: rest2 =>
        if d = ']' then some (PRes.rv (Json.arr []) rest2)
        else
          match recElems (d :: rest2) with
          | some (PRes.rl xs r) => some (PRes.rv (Json.arr xs) r)
          | _ => none
    else if c = '\x7b' then
      match skipWs rest with
      | [] => none
      | d :: rest2 =>
        if d = '\x7d' then some (PRes.rv (Json.obj []) rest2)
        else
          match recFields (d :: rest2) with
          | some (PRes.rf fs r) => some (PRes.rv (Json.obj fs) r)
          | _ => none
    else if c = '-' then
      match parseNatNum rest with
      | none => none
      | some p => some (PRes.rv (Json.num (-(p.1 : Int))) p.2)
    else if isDigitChar c then
      match parseNatNum (c :: rest) with
      | none => none
      | some p => some (PRes.rv (Json.num (p.1 : Int)) p.2)
    else none

/-- One step of the element-list grammar. -/
def pElems (recVal recElems : List Char → Option PRes) (cs : List Char) :
    Option PRes :=
  match recVal cs with
  | some (PRes.rv v r) =>
    (match skipWs r with
     | [] => none
     | c :: rest =>
       if c = ',' then
         match recElems rest with
         | some (PRes.rl xs r2) => some (PRes.rl (v :: xs) r2)
         | _ => none
       else if c = ']' then some (PRes.rl [v] rest)
       else none)
  | _ => none

/-- One step of the member-list grammar. -/
def pFields (recVal recFields : List Char → Option PRes) (cs : List Char) :
    Option PRes :=
  match skipWs cs with
  | [] => none
  | c :: rest =>
    if c = '"' then
      match parseStringBody rest with
      | none => none
      | some kp =>
        match skipWs kp.2 with
        | [] => none
        | d :: r2 =>
          if d = ':' then
            match recVal r2 with
            | some (PRes.rv v r3) =>
              (match skipWs r3 with
               | [] => none
               | e :: r4 =>
                 if e = ',' then
                   match recFields r4 with
                   | some (PRes.rf fs r5) => some (PRes.rf ((String.mk kp.1, v) :: fs) r5)
                   | _ => none
                 else if e = '\x7d' then some (PRes.rf [(String.mk kp.1, v)] r4)
                 else none)
            | _ => none
          else none
    else none

/-- Fuelled recursive-descent JSON parser; mode 0 parses a value, mode 1
an element list, mode 2 a member list. -/
def parseAux : Nat → Nat → List Char → Option PRes
  | 0, _, _ => none
  | fuel + 1, mode, cs =>
    if mode = 0 then pVal (parseAux fuel 1) (parseAux fuel 2) cs
    else if mode = 1 then pElems (parseAux fuel 0) (parseAux fuel 1) cs
    else pFields (parseAux fuel 0) (parseAux fuel 2) cs

/-- Parse one JSON value. -/
def parseVal (fuel : Nat) (cs : List Char) : Option (Json × List Char) :=
  match parseAux fuel 0 cs with
  | some (PRes.rv v r) => some (v, r)
  | _ => none

/-- Deserialisation of a JSON document; models json.loads, failing on
trailing garbage. -/
def loads (s : String) : Option Json :=
  match parseVal (s.length + 1) s.data with
  | some (v, r) => if (skipWs r).isEmpty then some v else none
  | none => none

/-!
Connection registry, from websocket.py: a module-level Python dict
active_connections from user id to websocket handle, modelled as an
insertion-ordered association list with at most one entry per key.
Websocket handles are opaque and modelled by their identity.
-/

/-- A live websocket handle, identified opaquely. -/
abbrev Chan := Nat

/-- Python dict lookup, as used by active_connections.get(receiver_id). -/
def dictGet : List (Nat × Chan) → Nat → Option Chan
  | [], _ => none
  | (k, v) :: rest, key => if k = key then some v else dictGet rest key

/-- Python dict assignment: replaces the value in place if the key is
present, appends otherwise. -/
def dictSet : List (Nat × Chan) → Nat → Chan → List (Nat × Chan)
  | [], key, v => [(key, v)]
  | (k, w) :: rest, key, v =>
    if k = key then (key, v) :: rest else (k, w) :: dictSet rest key v

/-- Python dict.pop with a default: removes the entry if present. -/
def dictPop : List (Nat × Chan) → Nat → List (Nat × Chan)
  | [], _ => []
  | (k, w) :: rest, key => if k = key then rest else (k, w) :: dictPop rest key

/-- Registry effect of websocket.py connect: installs the channel for the
user id, replacing any previous handle. -/
def connect (conns : List (Nat × Chan)) (user_id : Nat) (ws : Chan) :
    List (Nat × Chan) :=
  dictSet conns user_id ws

/-- websocket.py disconnect: active_connections.pop(user_id, None). -/
def disconnect (conns : List (Nat × Chan)) (user_id : Nat) :
    List (Nat × Chan) :=
  dictPop conns user_id

/-- websocket.py send_message: pushes the message over the receiver's
registered channel if one is present; the returned list is the sequence
of send_json calls performed. -/
def ws_send_message {M : Type} (conns : List (Nat × Chan)) (receiver_id : Nat)
    (message : M) : List (Chan × M) :=
  match dictGet conns receiver_id with
  | some ws => [(ws, message)]
  | none => []

/-!
Data model, from models.py.  Database timestamps (func.now()) are
modelled by a monotone counter advanced on every write; primary keys by
a next-id counter.
-/

/-- A row of the users table. -/
structure User where
  id : Nat
  public_id : String
  email : String
  username : String
  password_hash : String
  public_key : String
  is_admin : Bool
  created_at : Nat
deriving DecidableEq

/-- A row of the messages table. -/
structure Message where
  id : Nat
  sender_id : Nat
  receiver_id : Nat
  message : Option String
  file_url : Option String
  encrypted_key : Option String
  iv : Option String
  message_type : String
  created_at : Nat
deriving DecidableEq

/-- Database state: the two tables plus the id and clock counters. -/
structure DB where
  users : List User
  messages : List Message
  nextMsgId : Nat
  now : Nat
deriving DecidableEq

/-- An HTTPException raised by an endpoint. -/
structure HttpException where
  status_code : Nat
  detail : String
deriving DecidableEq

/-- db.query(User).filter(User.public_id == pid).first(). -/
def findUserByPublicId (db : DB) (pid : String) : Option User :=
  db.users.find? (fun u => u.public_id == pid)

/-- db.query(User.public_id).filter(User.id == uid).scalar(). -/
def userPublicIdOf (db : DB) (uid : Nat) : Option String :=
  (db.users.find? (fun u => u.id == uid)).map (fun u => u.public_id)

/-!
Chat endpoints, from main.py.
-/

/-- The request payload union Union[str, dict] of MessageRequest. -/
inductive Payload where
  | text (s : String)
  | structured (fields : List (String × Json))

/-- The body of POST /messages. -/
structure MessageRequest where
  sender_public_id : String
  receiver_public_id : String
  message : Payload

/-- Storage normalisation in send_message: a dict payload is serialised
with json.dumps, a plain string is stored as-is. -/
def storedMessage : Payload → String
  | Payload.structured d => dumps (Json.obj d)
  | Payload.text s => s

/-- The Message row created by send_message: message_type "text", no file
or encryption fields, timestamp assigned by the store at write time. -/
def mkTextMessage (db : DB) (senderId receiverId : Nat) (stored : String) :
    Message :=
  { id := db.nextMsgId, sender_id := senderId, receiver_id := receiverId,
    message := some stored, file_url := none, encrypted_key := none,
    iv := none, message_type := "text", created_at := db.now }

/-- db.add(msg); db.commit(): appends the row and advances the counters. -/
def persistMessage (db : DB) (m : Message) : DB :=
  { db with
    messages := db.messages ++ [m]
    nextMsgId := db.nextMsgId + 1
    now := db.now + 1 }

/-- Response body of a successful POST /messages. -/
structure SendStatus where
  status : String
deriving DecidableEq

/-- POST /messages (main.py send_message): resolves both public ids,
raises 404 if either is unknown, otherwise persists one text message row
and reports ok.  The returned state is the database after the call. -/
def send_message (db : DB) (data : MessageRequest) :
    DB × Except HttpException SendStatus :=
  match findUserByPublicId db data.sender_public_id,
      findUserByPublicId db data.receiver_public_id with
  | some sender, some receiver =>
    (persistMessage db
        (mkTextMessage db sender.id receiver.id (storedMessage data.message)),
      Except.ok { status := "ok" })
  | _, _ =>
    (db,
      Except.error
        { status_code := 404, detail := "Sender or receiver not found" })

/-- Test for the content-inspection heuristic msg.startswith applied to
the opening brace character. -/
def startsWithBrace (s : String) : Bool :=
  match s.data with
  | [] => false
  | c :: _ => c = '\x7b'

/-- The display transform of get_messages: a stored string that begins
with an opening brace is returned as parsed JSON when json.loads
succeeds, otherwise the stored string is returned unchanged. -/
def displayMessage : Option String → Option (Sum String Json)
  | none => none
  | some s =>
    if startsWithBrace s then
      match loads s with
      | some v => some (Sum.inr v)
      | none => some (Sum.inl s)
    else some (Sum.inl s)

/-- The ordering used by the messages query: ascending created_at. -/
def msgLe (a b : Message) : Prop := a.created_at ≤ b.created_at

instance : DecidableRel msgLe := fun a b => Nat.decLe a.created_at b.created_at

instance : IsTotal Message msgLe := ⟨fun a b => Nat.le_total a.created_at b.created_at⟩

instance : IsTrans Message msgLe := ⟨fun _ _ _ h h' => Nat.le_trans h h'⟩

/-- The filter of the messages query: either direction between the two
resolved internal ids. -/
def betweenPred (uid cid : Nat) (m : Message) : Bool :=
  (m.sender_id == uid && m.receiver_id == cid) ||
    (m.sender_id == cid && m.receiver_id == uid)

/-- One entry of the GET /messages response. -/
structure MsgOut where
  id : Nat
  sender_id : Nat
  receiver_id : Nat
  sender_public_id : Option String
  receiver_public_id : Option String
  message : Option (Sum String Json)
  file_url : Option String
  encrypted_key : Option String
  iv : Option String
  message_type : String
  created_at : Nat

/-- Projection of one stored row into a GET /messages response entry. -/
def msgOut (db : DB) (m : Message) : MsgOut :=
  { id := m.id, sender_id := m.sender_id, receiver_id := m.receiver_id,
    sender_public_id := userPublicIdOf db m.sender_id,
    receiver_public_id := userPublicIdOf db m.receiver_id,
    message := displayMessage m.message, file_url := m.file_url,
    encrypted_key := m.encrypted_key, iv := m.iv,
    message_type := m.message_type, created_at := m.created_at }

/-- GET /messages (main.py get_messages): resolves both public ids,
raises 404 if either is unknown, selects the rows between the two users
in either direction ordered ascending by created_at, and projects each
row through the display transform. -/
def get_messages (db : DB) (user_public_id contact_public_id : String) :
    Except HttpException (List MsgOut) :=
  match findUserByPublicId db user_public_id,
      findUserByPublicId db contact_public_id with
  | some user, some contact =>
    Except.ok
      (((db.messages.filter (betweenPred user.id contact.id)).insertionSort
          msgLe).map (msgOut db))
  | _, _ => Except.error { status_code := 404, detail := "User not found" }

/-- The last-message display of GET /users (main.py get_users): shown
only when a last message exists and its stored content is truthy; a
stored string beginning with an opening brace is parsed, with the raw
string kept on parse failure. -/
def getUsersDisplayMsg (last_msg : Option Message) : Option (Sum String Json) :=
  match last_msg with
  | none => none
  | some m =>
    match m.message with
    | none => none
    | some s =>
      if s = "" then none
      else if startsWithBrace s then
        match loads s with
        | some v => some (Sum.inr v)
        | none => some (Sum.inl s)
      else some (Sum.inl s)

/-!
Delivery dispatcher.
-/

/-- Routing metadata and display payload pushed over a live channel. -/
structure PushPayload where
  sender_public_id : String
  receiver_public_id : String
  message : Payload
  message_type : String
  created_at : Nat

/-- Failure taxonomy of the dispatcher. -/
inductive DeliverError where
  | unknownParticipant : DeliverError
  | persistenceFailure : DeliverError
deriving DecidableEq

/-- Result of one deliver invocation: the database after the call, the
pushes that reached a channel, and the outcome surfaced to the caller. -/
structure DeliverResult where
  db : DB
  pushes : List (Chan × PushPayload)
  outcome : Except DeliverError Unit

/-- Modelled from the spec: the Delivery Dispatcher and the Channel
Session Handler of spec sections 4.2 and 4.3 are not among the source
files (nothing in the sources invokes the functions of websocket.py), so
the glue sequencing persistence and live push is modelled from the
spec's words.  Participant validation and the persisted row reuse the
embedding of main.py send_message; the live push reuses the embedding of
websocket.py send_message.  storeOk models whether the durable write
succeeds; pushOk models whether send_json on a given channel succeeds
(a stale channel fails); a push failure is swallowed per spec section
4.2 step 4. -/
def deliver (storeOk : Bool) (pushOk : Chan → Bool) (db : DB)
    (conns : List (Nat × Chan)) (req : MessageRequest) : DeliverResult :=
  match findUserByPublicId db req.sender_public_id,
      findUserByPublicId db req.receiver_public_id with
  | some sender, some receiver =>
    if storeOk then
      let msg := mkTextMessage db sender.id receiver.id
        (storedMessage req.message)
      let payload : PushPayload :=
        { sender_public_id := req.sender_public_id,
          receiver_public_id := req.receiver_public_id,
          message := req.message, message_type := "text",
          created_at := msg.created_at }
      { db := persistMessage db msg
        pushes := (ws_send_message conns receiver.id payload).filter
          (fun p => pushOk p.1)
        outcome := Except.ok () }
    else
      { db := db
        pushes := []
        outcome := Except.error DeliverError.persistenceFailure }
  | _, _ =>
    { db := db
      pushes := []
      outcome := Except.error DeliverError.unknownParticipant }

/-!
Proof-side helper definitions.
-/

/-- The input does not begin with a digit (so a number literal before it
parses greedily up to exactly this point). -/
def noDigitHead : List Char → Bool
  | [] => true
  | c :: _ => !(isDigitChar c)

/-- Characters a serialised JSON value can begin with. -/
def startChar (c : Char) : Bool :=
  c = 'n' || c = 't' || c = 'f' || c = '"' || c = '[' || c = '\x7b' ||
    c = '-' || isDigitChar c

mutual
/-- Nesting measure of a JSON value, bounding the parser fuel it needs. -/
def jsize : Json → Nat
  | Json.arr xs => jsizeList xs + 1
  | Json.obj fs => jsizeFields fs + 1
  | _ => 1

/-- Nesting measure of an element list. -/
def jsizeList : List Json → Nat
  | [] => 0
  | x :: xs => jsize x + jsizeList xs + 1

/-- Nesting measure of a member list. -/
def jsizeFields : List (String × Json) → Nat
  | [] => 0
  | (_, v) :: fs => jsize v + jsizeFields fs + 1
end

/-!
Concrete fixtures used by the witness theorems: two users, an empty
message table, and one live channel (number 7) registered for the
second user.
-/

/-- Fixture user alice, public id u-1. -/
def wAlice : User :=
  { id := 1, public_id := "u-1", email := "a@e.com", username := "alice",
    password_hash := "h1", public_key := "pk1", is_admin := false,
    created_at := 0 }

/-- Fixture user bob, public id u-2. -/
def wBob : User :=
  { id := 2, public_id := "u-2", email := "b@e.com", username := "bob",
    password_hash := "h2", public_key := "pk2", is_admin := false,
    created_at := 0 }

/-- Fixture database with the two users and no messages. -/
def wDb : DB := { users := [wAlice, wBob], messages := [], nextMsgId := 1, now := 0 }

/-- Fixture registry: channel 7 registered for bob. -/
def wConns : List (Nat × Chan) := [(2, 7)]

/-- Fixture text send request from alice to bob. -/
def wReqText : MessageRequest :=
  { sender_public_id := "u-1", receiver_public_id := "u-2",
    message := Payload.text "hi" }

/-- Fixture structured send request from alice to bob. -/
def wReqStruct : MessageRequest :=
  { sender_public_id := "u-1", receiver_public_id := "u-2",
    message := Payload.structured [("a", Json.num 1)] }

/-- Fixture stored message row whose content is a JSON document. -/
def wMsgJson : Message :=
  { id := 0, sender_id := 1, receiver_id := 2,
    message := some "\x7b\"a\": 1\x7d", file_url := none,
    encrypted_key := none, iv := none, message_type := "text",
    created_at := 0 }


/-!
Lemmas: decimal representations.
-/

/-- Digit characters are digits. -/
theorem digitChar_isDigit {n : Nat} (h : n < 10) :
    isDigitChar (digitChar n) = true := by
  interval_cases n <;> decide

/-- digitVal inverts digitChar below ten. -/
theorem digitVal_digitChar {n : Nat} (h : n < 10) :
    digitVal (digitChar n) = n := by
  interval_cases n <;> decide

/-- The digits loop ignores its fuel once the fuel exceeds the number. -/
theorem natDigitsAux_fuel :
    ∀ (n fuel fuel' : Nat) (acc : List Char), n < fuel → n < fuel' →
      natDigitsAux fuel n acc = natDigitsAux fuel' n acc := by
  intro n
  induction n using Nat.strong_induction_on with
  | _ n ih =>
    intro fuel fuel' acc hf hf'
    match fuel, fuel' with
    | f + 1, f' + 1 =>
      simp only [natDigitsAux]
      by_cases h : n < 10
      · simp [h]
      · simp only [h, if_false]
        have hd : n / 10 < n := Nat.div_lt_self (by omega) (by omega)
        exact ih (n / 10) hd f f' _ (by omega) (by omega)

/-- The digits loop is the digits of the number followed by the
accumulator. -/
theorem natDigitsAux_append :
    ∀ (n : Nat) (acc : List Char),
      natDigitsAux (n + 1) n acc = natRepr n ++ acc := by
  intro n
  induction n using Nat.strong_induction_on with
  | _ n ih =>
    intro acc
    by_cases h : n < 10
    · simp [natRepr, natDigitsAux, h]
    · have hd : n / 10 < n := Nat.div_lt_self (by omega) (by omega)
      have hL : natDigitsAux (n + 1) n acc
          = natDigitsAux n (n / 10) (digitChar (n % 10) :: acc) := by
        simp [natDigitsAux, h]
      have hfuel : ∀ a : List Char,
          natDigitsAux n (n / 10) a = natDigitsAux (n / 10 + 1) (n / 10) a :=
        fun a => natDigitsAux_fuel (n / 10) n (n / 10 + 1) a (by omega) (by omega)
      rw [hL, hfuel, ih (n / 10) hd]
      have hR : natRepr n = natRepr (n / 10) ++ [digitChar (n % 10)] := by
        have : natRepr n = natDigitsAux n (n / 10) [digitChar (n % 10)] := by
          simp [natRepr, natDigitsAux, h]
        rw [this, hfuel, ih (n / 10) hd]
      rw [hR, List.append_assoc]
      rfl

/-- Small numbers print as one digit. -/
theorem natRepr_small {n : Nat} (h : n < 10) : natRepr n = [digitChar n] := by
  simp [natRepr, natDigitsAux, h]

/-- Large numbers print as the quotient's digits then the last digit. -/
theorem natRepr_split {n : Nat} (h : 10 ≤ n) :
    natRepr n = natRepr (n / 10) ++ [digitChar (n % 10)] := by
  have h' : ¬ n < 10 := by omega
  have hd : n / 10 < n := Nat.div_lt_self (by omega) (by omega)
  have : natRepr n = natDigitsAux n (n / 10) [digitChar (n % 10)] := by
    simp [natRepr, natDigitsAux, h']
  rw [this,
    natDigitsAux_fuel (n / 10) n (n / 10 + 1) _ (by omega) (by omega),
    natDigitsAux_append]

/-- Every character of a printed natural number is a digit. -/
theorem natRepr_digits :
    ∀ (n : Nat), ∀ c ∈ natRepr n, isDigitChar c = true := by
  intro n
  induction n using Nat.strong_induction_on with
  | _ n ih =>
    intro c hc
    by_cases h : n < 10
    · rw [natRepr_small h] at hc
      simp at hc
      subst hc
      exact digitChar_isDigit h
    · rw [natRepr_split (by omega)] at hc
      have hd : n / 10 < n := Nat.div_lt_self (by omega) (by omega)
      rcases List.mem_append.mp hc with h1 | h2
      · exact ih (n / 10) hd c h1
      · simp at h2
        subst h2
        exact digitChar_isDigit (Nat.mod_lt n (by omega))

/-- A printed natural number is never empty. -/
theorem natRepr_ne_nil (n : Nat) : natRepr n ≠ [] := by
  by_cases h : n < 10
  · rw [natRepr_small h]
    simp
  · rw [natRepr_split (by omega)]
    simp

/-- A printed natural number begins with a digit. -/
theorem natRepr_head (n : Nat) :
    ∃ c t, natRepr n = c :: t ∧ isDigitChar c = true := by
  cases hr : natRepr n with
  | nil => exact absurd hr (natRepr_ne_nil n)
  | cons c t =>
    refine ⟨c, t, rfl, natRepr_digits n c ?_⟩
    rw [hr]
    exact List.mem_cons_self c t

/-- Decimal evaluation distributes over append. -/
theorem digitsToNatAux_append :
    ∀ (xs ys : List Char) (acc : Nat),
      digitsToNatAux acc (xs ++ ys) = digitsToNatAux (digitsToNatAux acc xs) ys := by
  intro xs
  induction xs with
  | nil => intro ys acc; rfl
  | cons c cs ih =>
    intro ys acc
    exact ih ys (acc * 10 + digitVal c)

/-- Unfolding of the evaluation loop on the empty list. -/
theorem digitsToNatAux_nil (acc : Nat) : digitsToNatAux acc [] = acc := rfl

/-- Unfolding of the evaluation loop on a leading digit. -/
theorem digitsToNatAux_cons (acc : Nat) (c : Char) (cs : List Char) :
    digitsToNatAux acc (c :: cs) = digitsToNatAux (acc * 10 + digitVal c) cs :=
  rfl

/-- Decimal evaluation of a printed natural number. -/
theorem digitsToNatAux_natRepr :
    ∀ (n acc : Nat),
      digitsToNatAux acc (natRepr n) = acc * 10 ^ (natRepr n).length + n := by
  intro n
  induction n using Nat.strong_induction_on with
  | _ n ih =>
    intro acc
    by_cases h : n < 10
    · rw [natRepr_small h, digitsToNatAux_cons, digitsToNatAux_nil,
        digitVal_digitChar h]
      simp only [List.length_singleton, pow_one]
    · have hd : n / 10 < n := Nat.div_lt_self (by omega) (by omega)
      rw [natRepr_split (by omega), digitsToNatAux_append, ih (n / 10) hd,
        digitsToNatAux_cons, digitsToNatAux_nil,
        digitVal_digitChar (Nat.mod_lt n (by omega)),
        List.length_append, List.length_singleton]
      have hmod : 10 * (n / 10) + n % 10 = n := Nat.div_add_mod n 10
      have h2 : (acc * 10 ^ (natRepr (n / 10)).length + n / 10) * 10 + n % 10
          = acc * 10 ^ (natRepr (n / 10)).length * 10 + (10 * (n / 10) + n % 10) := by
        ring
      rw [h2, hmod, pow_succ]
      ring

/-- Decimal evaluation inverts printing. -/
theorem digitsToNat_natRepr (n : Nat) : digitsToNat (natRepr n) = n := by
  simpa [digitsToNat] using digitsToNatAux_natRepr n 0

/-!
Lemmas: character classes and tokens.
-/

/-- A digit character differs from any non-digit character. -/
theorem digit_ne {c x : Char} (h : isDigitChar c = true)
    (hx : isDigitChar x = false) : c ≠ x := by
  intro he
  subst he
  rw [h] at hx
  exact Bool.noConfusion hx

/-- Digit characters are not whitespace. -/
theorem not_ws_of_digit {c : Char} (h : isDigitChar c = true) :
    isWsChar c = false := by
  cases hw : isWsChar c with
  | false => rfl
  | true =>
    exfalso
    simp only [isWsChar, Bool.or_eq_true, decide_eq_true_eq] at hw
    rcases hw with ((h1 | h1) | h1) | h1 <;> subst h1 <;>
      exact absurd h (by decide)

/-- Unfolding of skipWs on the empty list. -/
theorem skipWs_nil : skipWs [] = [] := rfl

/-- Unfolding of skipWs on a head character. -/
theorem skipWs_cons (c : Char) (cs : List Char) :
    skipWs (c :: cs) = if isWsChar c then skipWs cs else c :: cs := rfl

/-- skipWs keeps a non-whitespace head. -/
theorem skipWs_not_ws {c : Char} (cs : List Char) (h : isWsChar c = false) :
    skipWs (c :: cs) = c :: cs := by
  rw [skipWs_cons, h]
  rfl

/-- skipWs drops a leading blank. -/
theorem skipWs_space (cs : List Char) : skipWs (' ' :: cs) = skipWs cs := by
  rw [skipWs_cons]
  rfl

/-- Unfolding of escList on a head character. -/
theorem escList_cons (c : Char) (cs : List Char) :
    escList (c :: cs) = escapeChar c ++ escList cs := rfl

/-- Parsing a string body at a closing quote. -/
theorem psb_quote (rest : List Char) :
    parseStringBody ('"' :: rest) = some ([], rest) := by
  rw [parseStringBody.eq_def]
  simp

/-- Parsing a string body at an ordinary character. -/
theorem psb_other {c : Char} (cs : List Char) (h1 : ¬ c = '"')
    (h2 : ¬ c = '\\') :
    parseStringBody (c :: cs) =
      (parseStringBody cs).map (fun p => (c :: p.1, p.2)) := by
  rw [parseStringBody.eq_def]
  simp only []
  rw [if_neg h1, if_neg h2]

/-- Parsing a string body at an escape sequence. -/
theorem psb_escaped (e u : Char) (cs : List Char)
    (hu : unescapeChar e = some u) :
    parseStringBody ('\\' :: e :: cs) =
      (parseStringBody cs).map (fun p => (u :: p.1, p.2)) := by
  rw [parseStringBody.eq_def]
  simp [hu]

/-- Parsing a string body inverts escaping, consuming the closing quote. -/
theorem parseStringBody_escape :
    ∀ (cs rest : List Char),
      parseStringBody (escList cs ++ ('"' :: rest)) = some (cs, rest) := by
  intro cs
  induction cs with
  | nil =>
    intro rest
    show parseStringBody ('"' :: rest) = some ([], rest)
    exact psb_quote rest
  | cons c cs ih =>
    intro rest
    rw [escList_cons]
    by_cases h1 : c = '"'
    · subst h1
      have he : escapeChar '"' = ['\\', '"'] := rfl
      rw [he, List.append_assoc]
      show parseStringBody ('\\' :: '"' :: (escList cs ++ ('"' :: rest))) = _
      rw [psb_escaped '"' '"' _ rfl, ih]
      rfl
    · by_cases h2 : c = '\\'
      · subst h2
        have he : escapeChar '\\' = ['\\', '\\'] := rfl
        rw [he, List.append_assoc]
        show parseStringBody ('\\' :: '\\' :: (escList cs ++ ('"' :: rest))) = _
        rw [psb_escaped '\\' '\\' _ rfl, ih]
        rfl
      · by_cases h3 : c = '\n'
        · subst h3
          have he : escapeChar '\n' = ['\\', 'n'] := rfl
          rw [he, List.append_assoc]
          show parseStringBody ('\\' :: 'n' :: (escList cs ++ ('"' :: rest))) = _
          rw [psb_escaped 'n' '\n' _ rfl, ih]
          rfl
        · by_cases h4 : c = '\t'
          · subst h4
            have he : escapeChar '\t' = ['\\', 't'] := rfl
            rw [he, List.append_assoc]
            show parseStringBody ('\\' :: 't' :: (escList cs ++ ('"' :: rest))) = _
            rw [psb_escaped 't' '\t' _ rfl, ih]
            rfl
          · by_cases h5 : c = '\r'
            · subst h5
              have he : escapeChar '\r' = ['\\', 'r'] := rfl
              rw [he, List.append_assoc]
              show parseStringBody ('\\' :: 'r' :: (escList cs ++ ('"' :: rest))) = _
              rw [psb_escaped 'r' '\r' _ rfl, ih]
              rfl
            · have he : escapeChar c = [c] := by
                simp [escapeChar, h1, h2, h3, h4, h5]
              rw [he, List.append_assoc]
              show parseStringBody (c :: (escList cs ++ ('"' :: rest))) = _
              rw [psb_other _ h1 h2, ih]
              rfl

/-- Parsing digits at a digit character. -/
theorem parseDigits_digit {c : Char} (cs : List Char)
    (h : isDigitChar c = true) :
    parseDigits (c :: cs) = (c :: (parseDigits cs).1, (parseDigits cs).2) := by
  rw [parseDigits.eq_def]
  simp [h]

/-- Parsing digits at a non-digit character. -/
theorem parseDigits_nondigit {c : Char} (cs : List Char)
    (h : isDigitChar c = false) :
    parseDigits (c :: cs) = ([], c :: cs) := by
  rw [parseDigits.eq_def]
  simp [h]

/-- A run of digits parses exactly up to a non-digit boundary. -/
theorem parseDigits_append :
    ∀ (ds rest : List Char), (∀ c ∈ ds, isDigitChar c = true) →
      noDigitHead rest = true → parseDigits (ds ++ rest) = (ds, rest) := by
  intro ds
  induction ds with
  | nil =>
    intro rest _ hnd
    cases rest with
    | nil => rfl
    | cons c t =>
      have hc : isDigitChar c = false := by
        simp only [noDigitHead, Bool.not_eq_true'] at hnd
        exact hnd
      simpa using parseDigits_nondigit t hc
  | cons c ds ih =>
    intro rest hds hnd
    have hc : isDigitChar c = true := hds c (List.mem_cons_self c ds)
    rw [List.cons_append,
      parseDigits_digit _ hc,
      ih rest (fun d hd => hds d (List.mem_cons_of_mem c hd)) hnd]

/-- Unfolding of parseNatNum. -/
theorem parseNatNum_eq (cs : List Char) :
    parseNatNum cs =
      if (parseDigits cs).1.isEmpty then none
      else some (digitsToNat (parseDigits cs).1, (parseDigits cs).2) := rfl

/-- A printed natural number followed by a non-digit parses back to
itself. -/
theorem parseNatNum_natRepr {rest : List Char} (n : Nat)
    (h : noDigitHead rest = true) :
    parseNatNum (natRepr n ++ rest) = some (n, rest) := by
  rw [parseNatNum_eq, parseDigits_append (natRepr n) rest (natRepr_digits n) h]
  have hne : (natRepr n).isEmpty = false := by
    cases hr : natRepr n with
    | nil => exact absurd hr (natRepr_ne_nil n)
    | cons a t => rfl
  rw [hne]
  simp [digitsToNat_natRepr]

/-- A value-start character is not whitespace. -/
theorem startChar_not_ws {c : Char} (h : startChar c = true) :
    isWsChar c = false := by
  simp only [startChar, Bool.or_eq_true, decide_eq_true_eq] at h
  rcases h with ((((((h1 | h1) | h1) | h1) | h1) | h1) | h1) | hd
  · subst h1; rfl
  · subst h1; rfl
  · subst h1; rfl
  · subst h1; rfl
  · subst h1; rfl
  · subst h1; rfl
  · subst h1; rfl
  · exact not_ws_of_digit hd

/-- A value-start character is not a closing bracket. -/
theorem startChar_ne_rsqb {c : Char} (h : startChar c = true) : c ≠ ']' := by
  simp only [startChar, Bool.or_eq_true, decide_eq_true_eq] at h
  rcases h with ((((((h1 | h1) | h1) | h1) | h1) | h1) | h1) | hd
  · subst h1; decide
  · subst h1; decide
  · subst h1; decide
  · subst h1; decide
  · subst h1; decide
  · subst h1; decide
  · subst h1; decide
  · exact digit_ne hd (by decide)

/-- A value-start character is not a closing brace. -/
theorem startChar_ne_rbrace {c : Char} (h : startChar c = true) :
    c ≠ '\x7d' := by
  simp only [startChar, Bool.or_eq_true, decide_eq_true_eq] at h
  rcases h with ((((((h1 | h1) | h1) | h1) | h1) | h1) | h1) | hd
  · subst h1; decide
  · subst h1; decide
  · subst h1; decide
  · subst h1; decide
  · subst h1; decide
  · subst h1; decide
  · subst h1; decide
  · exact digit_ne hd (by decide)

/-- A printed integer begins with a value-start character. -/
theorem intRepr_head (n : Int) :
    ∃ c t, intRepr n = c :: t ∧ startChar c = true := by
  cases n with
  | ofNat m =>
    obtain ⟨c, t, hct, hd⟩ := natRepr_head m
    refine ⟨c, t, by simp [intRepr, hct], ?_⟩
    simp [startChar, hd]
  | negSucc m => exact ⟨'-', natRepr (m + 1), rfl, by decide⟩

/-- A serialised JSON value begins with a value-start character. -/
theorem jdump_head (v : Json) :
    ∃ c t, jdump v = c :: t ∧ startChar c = true := by
  cases v with
  | null => exact ⟨'n', ['u', 'l', 'l'], by simp [jdump], by decide⟩
  | bool b =>
    cases b with
    | true => exact ⟨'t', ['r', 'u', 'e'], by simp [jdump], by decide⟩
    | false => exact ⟨'f', ['a', 'l', 's', 'e'], by simp [jdump], by decide⟩
  | num n =>
    obtain ⟨c, t, hct, hs⟩ := intRepr_head n
    exact ⟨c, t, by simp [jdump, hct], hs⟩
  | str s => exact ⟨'"', escList s.data ++ ['"'], by simp [jdump], by decide⟩
  | arr xs => exact ⟨'[', jdumpElems xs ++ [']'], by simp [jdump], by decide⟩
  | obj fs => exact ⟨'\x7b', jdumpFields fs ++ ['\x7d'], by simp [jdump], by decide⟩

/-- Serialised element lists of nonempty arrays begin with a value-start
character. -/
theorem jdumpElems_head (x : Json) (xs : List Json) :
    ∃ c t, jdumpElems (x :: xs) = c :: t ∧ startChar c = true := by
  obtain ⟨c, t, hct, hs⟩ := jdump_head x
  refine ⟨c, t ++ (if xs.isEmpty then [] else ',' :: ' ' :: jdumpElems xs), ?_, hs⟩
  simp [jdumpElems, hct]

/-- Serialised member lists of nonempty objects begin with a quote. -/
theorem jdumpFields_head (k : String) (v : Json) (fs : List (String × Json)) :
    ∃ t, jdumpFields ((k, v) :: fs) = '"' :: t := by
  refine ⟨(escList k.data ++ ('"' :: ':' :: ' ' :: jdump v)) ++
    (if fs.isEmpty then [] else ',' :: ' ' :: jdumpFields fs), ?_⟩
  simp [jdumpFields]

/-- Running the parser with zero fuel fails. -/
theorem parseAux_zero (mode : Nat) (cs : List Char) :
    parseAux 0 mode cs = none := rfl

/-- Unfolding of the parser in value mode. -/
theorem parseAux_succ_zero (fuel : Nat) (cs : List Char) :
    parseAux (fuel + 1) 0 cs = pVal (parseAux fuel 1) (parseAux fuel 2) cs := by
  rw [parseAux.eq_def]
  simp

/-- Unfolding of the parser in element-list mode. -/
theorem parseAux_succ_one (fuel : Nat) (cs : List Char) :
    parseAux (fuel + 1) 1 cs = pElems (parseAux fuel 0) (parseAux fuel 1) cs := by
  rw [parseAux.eq_def]
  simp

/-- Unfolding of the parser in member-list mode. -/
theorem parseAux_succ_two (fuel : Nat) (cs : List Char) :
    parseAux (fuel + 1) 2 cs = pFields (parseAux fuel 0) (parseAux fuel 2) cs := by
  rw [parseAux.eq_def]
  simp

/-- The value grammar ignores a leading blank. -/
theorem pVal_space (r1 r2 : List Char → Option PRes) (X : List Char) :
    pVal r1 r2 (' ' :: X) = pVal r1 r2 X := by
  simp only [pVal, skipWs_space]

/-- The member grammar ignores a leading blank. -/
theorem pFields_space (r0 r2 : List Char → Option PRes) (X : List Char) :
    pFields r0 r2 (' ' :: X) = pFields r0 r2 X := by
  simp only [pFields, skipWs_space]

/-- The parser in value mode ignores a leading blank. -/
theorem parseAux_zero_space (fuel : Nat) (X : List Char) :
    parseAux fuel 0 (' ' :: X) = parseAux fuel 0 X := by
  cases fuel with
  | zero => rfl
  | succ f => rw [parseAux_succ_zero, parseAux_succ_zero, pVal_space]

/-- The element grammar ignores a leading blank when its value parser
does. -/
theorem pElems_space (r0 r1 : List Char → Option PRes) (X : List Char)
    (h : ∀ Y, r0 (' ' :: Y) = r0 Y) :
    pElems r0 r1 (' ' :: X) = pElems r0 r1 X := by
  simp only [pElems, h]

/-- The parser in element-list mode ignores a leading blank. -/
theorem parseAux_one_space (fuel : Nat) (X : List Char) :
    parseAux fuel 1 (' ' :: X) = parseAux fuel 1 X := by
  cases fuel with
  | zero => rfl
  | succ f =>
    rw [parseAux_succ_one, parseAux_succ_one]
    exact pElems_space _ _ X (parseAux_zero_space f)

/-- The parser in member-list mode ignores a leading blank. -/
theorem parseAux_two_space (fuel : Nat) (X : List Char) :
    parseAux fuel 2 (' ' :: X) = parseAux fuel 2 X := by
  cases fuel with
  | zero => rfl
  | succ f => rw [parseAux_succ_two, parseAux_succ_two, pFields_space]

/-- Every JSON value has positive measure. -/
theorem jsize_pos (v : Json) : 1 ≤ jsize v := by
  cases v <;> simp [jsize]

mutual
/-- The measure of a value is bounded by its serialised length. -/
theorem jsize_le_len : (v : Json) → jsize v ≤ (jdump v).length
  | Json.null => by simp [jsize, jdump]
  | Json.bool true => by simp [jsize, jdump]
  | Json.bool false => by simp [jsize, jdump]
  | Json.num n => by
    obtain ⟨c, t, hct, _⟩ := intRepr_head n
    simp [jsize, jdump, hct]
  | Json.str s => by simp [jsize, jdump]
  | Json.arr xs => by
    have h := jsizeList_le_len xs
    simp only [jsize, jdump, List.length_append, List.length_cons]
    omega
  | Json.obj fs => by
    have h := jsizeFields_le_len fs
    simp only [jsize, jdump, List.length_append, List.length_cons]
    omega

/-- The measure of an element list is bounded by its serialised length
plus one. -/
theorem jsizeList_le_len :
    (xs : List Json) → jsizeList xs ≤ (jdumpElems xs).length + 1
  | [] => by simp [jsizeList, jdumpElems]
  | x :: xs => by
    have h1 := jsize_le_len x
    have h2 := jsizeList_le_len xs
    cases xs with
    | nil =>
      simp only [jsizeList, jdumpElems, List.isEmpty_nil, if_true,
        List.append_nil]
      omega
    | cons y ys =>
      simp [jdumpElems, jsizeList] at h2 ⊢
      omega

/-- The measure of a member list is bounded by its serialised length
plus one. -/
theorem jsizeFields_le_len :
    (fs : List (String × Json)) → jsizeFields fs ≤ (jdumpFields fs).length + 1
  | [] => by simp [jsizeFields, jdumpFields]
  | (k, v) :: fs => by
    have h1 := jsize_le_len v
    have h2 := jsizeFields_le_len fs
    cases fs with
    | nil =>
      simp only [jsizeFields, jdumpFields, List.isEmpty_nil, if_true,
        List.append_nil, List.length_append, List.length_cons]
      omega
    | cons q fs' =>
      simp [jdumpFields, jsizeFields] at h2 ⊢
      omega
end

/-!
Lemmas: the parser inverts serialisation.
-/

theorem pVal_dump_null (r1 r2 : List Char → Option PRes) (rest : List Char) :
    pVal r1 r2 (jdump Json.null ++ rest) = some (PRes.rv Json.null rest) := by
  have hj : jdump Json.null ++ rest = 'n' :: ('u' :: 'l' :: 'l' :: rest) := by
    simp [jdump]
  rw [hj]
  simp only [pVal]
  rw [skipWs_not_ws _ (by decide)]
  rfl

theorem pVal_dump_str (r1 r2 : List Char → Option PRes) (s : String)
    (rest : List Char) :
    pVal r1 r2 (jdump (Json.str s) ++ rest) = some (PRes.rv (Json.str s) rest) := by
  have hj : jdump (Json.str s) ++ rest = '"' :: (escList s.data ++ ('"' :: rest)) := by
    simp [jdump]
  rw [hj]
  simp only [pVal]
  rw [skipWs_not_ws _ (by decide)]
  simp only []
  rw [parseStringBody_escape]
  rfl

theorem pVal_dump_num (r1 r2 : List Char → Option PRes) (n : Int)
    {rest : List Char} (hnd : noDigitHead rest = true) :
    pVal r1 r2 (jdump (Json.num n) ++ rest) = some (PRes.rv (Json.num n) rest) := by
  cases n with
  | ofNat m =>
    obtain ⟨c, t, hct, hd⟩ := natRepr_head m
    have hj : jdump (Json.num (Int.ofNat m)) ++ rest = c :: (t ++ rest) := by
      simp [jdump, intRepr, hct]
    rw [hj]
    simp only [pVal]
    rw [skipWs_not_ws _ (not_ws_of_digit hd)]
    simp only []
    rw [if_neg (digit_ne hd (by decide) : c ≠ 'n'),
      if_neg (digit_ne hd (by decide) : c ≠ 't'),
      if_neg (digit_ne hd (by decide) : c ≠ 'f'),
      if_neg (digit_ne hd (by decide) : c ≠ '"'),
      if_neg (digit_ne hd (by decide) : c ≠ '['),
      if_neg (digit_ne hd (by decide) : c ≠ '\x7b'),
      if_neg (digit_ne hd (by decide) : c ≠ '-')]
    simp only [hd, if_true]
    have harg : c :: (t ++ rest) = natRepr m ++ rest := by
      rw [← List.cons_append, ← hct]
    rw [harg, parseNatNum_natRepr m hnd]
    rfl
  | negSucc m =>
    have hj : jdump (Json.num (Int.negSucc m)) ++ rest
        = '-' :: (natRepr (m + 1) ++ rest) := by
      simp [jdump, intRepr]
    rw [hj]
    simp only [pVal]
    rw [skipWs_not_ws _ (by decide)]
    simp only []
    rw [parseNatNum_natRepr (m + 1) hnd]
    have hneg : -((m + 1 : Nat) : Int) = Int.negSucc m := by
      rw [Int.negSucc_eq]
      push_cast
      ring
    simp only []
    rw [hneg]
    simp

theorem pVal_dump_bool (r1 r2 : List Char → Option PRes) (b : Bool)
    (rest : List Char) :
    pVal r1 r2 (jdump (Json.bool b) ++ rest) = some (PRes.rv (Json.bool b) rest) := by
  cases b with
  | true =>
    have hj : jdump (Json.bool true) ++ rest = 't' :: ('r' :: 'u' :: 'e' :: rest) := by
      simp [jdump]
    rw [hj]
    simp only [pVal]
    rw [skipWs_not_ws _ (by decide)]
    rfl
  | false =>
    have hj : jdump (Json.bool false) ++ rest
        = 'f' :: ('a' :: 'l' :: 's' :: 'e' :: rest) := by
      simp [jdump]
    rw [hj]
    simp only [pVal]
    rw [skipWs_not_ws _ (by decide)]
    rfl

theorem pVal_dump_arr_nil (r1 r2 : List Char → Option PRes) (rest : List Char) :
    pVal r1 r2 (jdump (Json.arr []) ++ rest) = some (PRes.rv (Json.arr []) rest) := by
  have hj : jdump (Json.arr []) ++ rest = '[' :: (']' :: rest) := by
    simp [jdump, jdumpElems]
  rw [hj]
  simp only [pVal]
  rw [skipWs_not_ws _ (by decide)]
  simp only []
  rw [skipWs_not_ws _ (by decide)]
  rfl

theorem pVal_dump_arr (r1 r2 : List Char → Option PRes) (x : Json)
    (xs : List Json) (rest : List Char)
    (h1 : r1 (jdumpElems (x :: xs) ++ (']' :: rest))
      = some (PRes.rl (x :: xs) rest)) :
    pVal r1 r2 (jdump (Json.arr (x :: xs)) ++ rest)
      = some (PRes.rv (Json.arr (x :: xs)) rest) := by
  obtain ⟨c, t, hct, hs⟩ := jdumpElems_head x xs
  have hj : jdump (Json.arr (x :: xs)) ++ rest
      = '[' :: (c :: (t ++ (']' :: rest))) := by
    simp [jdump, hct]
  rw [hct] at h1
  rw [hj]
  simp only [pVal]
  rw [skipWs_not_ws _ (by decide)]
  simp only []
  rw [skipWs_not_ws _ (startChar_not_ws hs)]
  simp only []
  rw [if_neg (fun he => startChar_ne_rsqb hs he)]
  have harg : c :: (t ++ (']' :: rest)) = (c :: t) ++ (']' :: rest) := by
    simp
  rw [harg, h1]
  simp

theorem pVal_dump_obj_nil (r1 r2 : List Char → Option PRes) (rest : List Char) :
    pVal r1 r2 (jdump (Json.obj []) ++ rest) = some (PRes.rv (Json.obj []) rest) := by
  have hj : jdump (Json.obj []) ++ rest = '\x7b' :: ('\x7d' :: rest) := by
    simp [jdump, jdumpFields]
  rw [hj]
  simp only [pVal]
  rw [skipWs_not_ws _ (by decide)]
  simp only []
  rw [skipWs_not_ws _ (by decide)]
  rfl

theorem pVal_dump_obj (r1 r2 : List Char → Option PRes) (k : String) (v : Json)
    (fs : List (String × Json)) (rest : List Char)
    (h2 : r2 (jdumpFields ((k, v) :: fs) ++ ('\x7d' :: rest))
      = some (PRes.rf ((k, v) :: fs) rest)) :
    pVal r1 r2 (jdump (Json.obj ((k, v) :: fs)) ++ rest)
      = some (PRes.rv (Json.obj ((k, v) :: fs)) rest) := by
  obtain ⟨t, hct⟩ := jdumpFields_head k v fs
  have hj : jdump (Json.obj ((k, v) :: fs)) ++ rest
      = '\x7b' :: ('"' :: (t ++ ('\x7d' :: rest))) := by
    simp [jdump, hct]
  rw [hct] at h2
  rw [hj]
  simp only [pVal]
  rw [skipWs_not_ws _ (by decide)]
  simp only []
  rw [skipWs_not_ws _ (by decide)]
  simp only []
  have harg : '"' :: (t ++ ('\x7d' :: rest)) = ('"' :: t) ++ ('\x7d' :: rest) := by
    simp
  rw [harg, h2]
  simp

theorem pElems_single (r0 r1 : List Char → Option PRes) (x : Json)
    (rest : List Char)
    (h0 : r0 (jdump x ++ (']' :: rest)) = some (PRes.rv x (']' :: rest))) :
    pElems r0 r1 (jdumpElems [x] ++ (']' :: rest)) = some (PRes.rl [x] rest) := by
  have hje : jdumpElems [x] = jdump x := by simp [jdumpElems]
  rw [hje]
  simp only [pElems]
  rw [h0]
  simp only []
  rw [skipWs_not_ws _ (by decide)]
  simp

theorem pElems_cons (r0 r1 : List Char → Option PRes) (x y : Json)
    (ys : List Json) (rest : List Char)
    (h0 : r0 (jdump x ++ (',' :: ' ' :: (jdumpElems (y :: ys) ++ (']' :: rest))))
      = some (PRes.rv x (',' :: ' ' :: (jdumpElems (y :: ys) ++ (']' :: rest)))))
    (h1 : r1 (' ' :: (jdumpElems (y :: ys) ++ (']' :: rest)))
      = some (PRes.rl (y :: ys) rest)) :
    pElems r0 r1 (jdumpElems (x :: y :: ys) ++ (']' :: rest))
      = some (PRes.rl (x :: y :: ys) rest) := by
  have hje : jdumpElems (x :: y :: ys) ++ (']' :: rest)
      = jdump x ++ (',' :: ' ' :: (jdumpElems (y :: ys) ++ (']' :: rest))) := by
    simp [jdumpElems]
  rw [hje]
  simp only [pElems]
  rw [h0]
  simp only []
  rw [skipWs_not_ws _ (by decide)]
  simp only []
  simp only [if_true]
  rw [h1]

theorem pFields_single (r0 r2 : List Char → Option PRes) (k : String) (v : Json)
    (rest : List Char)
    (h0 : r0 (' ' :: (jdump v ++ ('\x7d' :: rest)))
      = some (PRes.rv v ('\x7d' :: rest))) :
    pFields r0 r2 (jdumpFields [(k, v)] ++ ('\x7d' :: rest))
      = some (PRes.rf [(k, v)] rest) := by
  have hjf : jdumpFields [(k, v)] ++ ('\x7d' :: rest)
      = '"' :: (escList k.data ++ ('"' :: (':' :: ' ' ::
          (jdump v ++ ('\x7d' :: rest))))) := by
    simp [jdumpFields]
  rw [hjf]
  simp only [pFields]
  rw [skipWs_not_ws _ (by decide)]
  simp only []
  rw [parseStringBody_escape]
  simp only []
  rw [skipWs_not_ws _ (by decide)]
  simp only []
  simp only [if_true]
  rw [h0]
  simp only []
  rw [skipWs_not_ws _ (by decide)]
  simp

theorem pFields_cons (r0 r2 : List Char → Option PRes) (k : String) (v : Json)
    (q : String × Json) (fs' : List (String × Json)) (rest : List Char)
    (h0 : r0 (' ' :: (jdump v ++ (',' :: ' ' ::
        (jdumpFields (q :: fs') ++ ('\x7d' :: rest)))))
      = some (PRes.rv v (',' :: ' ' ::
        (jdumpFields (q :: fs') ++ ('\x7d' :: rest)))))
    (h2 : r2 (' ' :: (jdumpFields (q :: fs') ++ ('\x7d' :: rest)))
      = some (PRes.rf (q :: fs') rest)) :
    pFields r0 r2 (jdumpFields ((k, v) :: q :: fs') ++ ('\x7d' :: rest))
      = some (PRes.rf ((k, v) :: q :: fs') rest) := by
  have hjf : jdumpFields ((k, v) :: q :: fs') ++ ('\x7d' :: rest)
      = '"' :: (escList k.data ++ ('"' :: (':' :: ' ' ::
          (jdump v ++ (',' :: ' ' ::
            (jdumpFields (q :: fs') ++ ('\x7d' :: rest))))))) := by
    simp [jdumpFields]
  rw [hjf]
  simp only [pFields]
  rw [skipWs_not_ws _ (by decide)]
  simp only []
  rw [parseStringBody_escape]
  simp only []
  rw [skipWs_not_ws _ (by decide)]
  simp only []
  simp only [if_true]
  rw [h0]
  simp only []
  rw [skipWs_not_ws _ (by decide)]
  simp only []
  simp only [if_true]
  rw [h2]

theorem parse_jdump : ∀ (fuel : Nat),
    (∀ (v : Json) (rest : List Char), jsize v ≤ fuel → noDigitHead rest = true →
      parseAux fuel 0 (jdump v ++ rest) = some (PRes.rv v rest)) ∧
    (∀ (xs : List Json) (rest : List Char), xs ≠ [] → jsizeList xs ≤ fuel →
      noDigitHead rest = true →
      parseAux fuel 1 (jdumpElems xs ++ (']' :: rest)) = some (PRes.rl xs rest)) ∧
    (∀ (fs : List (String × Json)) (rest : List Char), fs ≠ [] →
      jsizeFields fs ≤ fuel → noDigitHead rest = true →
      parseAux fuel 2 (jdumpFields fs ++ ('\x7d' :: rest)) = some (PRes.rf fs rest)) := by
  intro fuel
  induction fuel with
  | zero =>
    refine ⟨?_, ?_, ?_⟩
    · intro v rest hsz _
      exact absurd (le_trans (jsize_pos v) hsz) (by omega)
    · intro xs rest hne hsz _
      cases xs with
      | nil => exact absurd rfl hne
      | cons x xs => simp [jsizeList] at hsz
    · intro fs rest hne hsz _
      cases fs with
      | nil => exact absurd rfl hne
      | cons p fs =>
        obtain ⟨k, v⟩ := p
        simp [jsizeFields] at hsz
  | succ fuel ih =>
    obtain ⟨ihv, ihl, ihf⟩ := ih
    refine ⟨?_, ?_, ?_⟩
    · intro v rest hsz hnd
      rw [parseAux_succ_zero]
      cases v with
      | null => exact pVal_dump_null _ _ rest
      | bool b => exact pVal_dump_bool _ _ b rest
      | num n => exact pVal_dump_num _ _ n hnd
      | str s => exact pVal_dump_str _ _ s rest
      | arr xs =>
        cases xs with
        | nil => exact pVal_dump_arr_nil _ _ rest
        | cons x xs' =>
          simp only [jsize] at hsz
          exact pVal_dump_arr _ _ x xs' rest
            (ihl (x :: xs') rest (by simp) (by omega) hnd)
      | obj fs =>
        cases fs with
        | nil => exact pVal_dump_obj_nil _ _ rest
        | cons p fs' =>
          obtain ⟨k, v⟩ := p
          simp only [jsize] at hsz
          exact pVal_dump_obj _ _ k v fs' rest
            (ihf ((k, v) :: fs') rest (by simp) (by omega) hnd)
    · intro xs rest hne hsz hnd
      cases xs with
      | nil => exact absurd rfl hne
      | cons x xs' =>
        rw [parseAux_succ_one]
        simp only [jsizeList] at hsz
        cases xs' with
        | nil =>
          exact pElems_single _ _ x rest
            (ihv x (']' :: rest) (by omega) (by rfl))
        | cons y ys =>
          have hy : 1 ≤ jsize x := jsize_pos x
          refine pElems_cons _ _ x y ys rest
            (ihv x _ (by omega) (by rfl)) ?_
          rw [parseAux_one_space]
          refine ihl (y :: ys) rest (by simp) ?_ hnd
          simp only [jsizeList] at hsz ⊢
          omega
    · intro fs rest hne hsz hnd
      cases fs with
      | nil => exact absurd rfl hne
      | cons p fs' =>
        obtain ⟨k, v⟩ := p
        rw [parseAux_succ_two]
        simp only [jsizeFields] at hsz
        cases fs' with
        | nil =>
          refine pFields_single _ _ k v rest ?_
          rw [parseAux_zero_space]
          exact ihv v ('\x7d' :: rest) (by omega) (by rfl)
        | cons q fs2 =>
          have hv : 1 ≤ jsize v := jsize_pos v
          refine pFields_cons _ _ k v q fs2 rest ?_ ?_
          · rw [parseAux_zero_space]
            exact ihv v _ (by omega) (by rfl)
          · rw [parseAux_two_space]
            refine ihf (q :: fs2) rest (by simp) ?_ hnd
            simp only [jsizeFields] at hsz ⊢
            omega

theorem loads_dumps (v : Json) : loads (dumps v) = some v := by
  have hfuel : jsize v ≤ (jdump v).length + 1 :=
    le_trans (jsize_le_len v) (by omega)
  have h := (parse_jdump ((jdump v).length + 1)).1 v [] hfuel rfl
  rw [List.append_nil] at h
  have hlen : (dumps v).length = (jdump v).length := rfl
  simp only [loads, parseVal, hlen]
  have hdata : (dumps v).data = jdump v := rfl
  rw [hdata, h]
  rfl

/-!
Lemmas: the connection registry.
-/

/-- Lookup after assignment finds the assigned channel. -/
theorem dictGet_dictSet_same (m : List (Nat × Chan)) (k : Nat) (v : Chan) :
    dictGet (dictSet m k v) k = some v := by
  induction m with
  | nil => simp [dictSet, dictGet]
  | cons p rest ih =>
    obtain ⟨k', v'⟩ := p
    by_cases h : k' = k
    · subst h
      simp [dictSet, dictGet]
    · simp [dictSet, dictGet, h, ih]

/-- Removing an absent key leaves the dict unchanged. -/
theorem dictPop_absent (m : List (Nat × Chan)) (k : Nat)
    (h : dictGet m k = none) : dictPop m k = m := by
  induction m with
  | nil => rfl
  | cons p rest ih =>
    obtain ⟨k', v'⟩ := p
    by_cases hk : k' = k
    · subst hk
      simp [dictGet] at h
    · simp [dictGet, hk] at h
      simp [dictPop, hk, ih h]

/-!
Lemmas: the history query.
-/

/-- A stored row between the two resolved users appears in the
GET /messages response. -/
theorem get_messages_mem {db : DB} {a b : String} {u c : User} (m : Message)
    (hu : findUserByPublicId db a = some u)
    (hc : findUserByPublicId db b = some c)
    (hm : m ∈ db.messages) (hb : betweenPred u.id c.id m = true) :
    ∃ l, get_messages db a b = Except.ok l ∧ msgOut db m ∈ l := by
  have hq : get_messages db a b = Except.ok
      (((db.messages.filter (betweenPred u.id c.id)).insertionSort
        msgLe).map (msgOut db)) := by
    simp [get_messages, hu, hc]
  refine ⟨_, hq, ?_⟩
  apply List.mem_map_of_mem
  rw [List.mem_insertionSort]
  exact List.mem_filter.mpr ⟨hm, hb⟩

/-- The display transform returns the parsed object for a stored
serialised dict. -/
theorem displayMessage_dumps_obj (d : List (String × Json)) :
    displayMessage (some (dumps (Json.obj d))) = some (Sum.inr (Json.obj d)) := by
  have hb : startsWithBrace (dumps (Json.obj d)) = true := by
    simp [startsWithBrace, dumps, jdump]
  simp [displayMessage, hb, loads_dumps]

/-!
Claim theorems.
-/


/-- C5: register always succeeds and atomically replaces the previous
handle: after registering ch1 then ch2 for the same identity, lookup
returns only ch2, and a push for that identity reaches exactly the
second channel and never the first (orphaned) one. -/
theorem c5_register_replaces {M : Type} (conns : List (Nat × Chan))
    (uid : Nat) (ch1 ch2 : Chan) (msg : M) (hne : ch1 ≠ ch2) :
    dictGet (connect (connect conns uid ch1) uid ch2) uid = some ch2 ∧
    ws_send_message (connect (connect conns uid ch1) uid ch2) uid msg
      = [(ch2, msg)] ∧
    (ch1, msg) ∉ ws_send_message (connect (connect conns uid ch1) uid ch2)
      uid msg := by
  have hget : dictGet (connect (connect conns uid ch1) uid ch2) uid = some ch2 :=
    dictGet_dictSet_same _ uid ch2
  refine ⟨hget, ?_, ?_⟩
  · simp [ws_send_message, hget]
  · simp [ws_send_message, hget]
    intro he
    exact absurd he hne

/-- C7: a send whose sender or receiver public id does not resolve fails
with the client-facing 404 and leaves the database unchanged. -/
theorem c7_unknown_participant (db : DB) (req : MessageRequest)
    (h : findUserByPublicId db req.sender_public_id = none ∨
      findUserByPublicId db req.receiver_public_id = none) :
    send_message db req =
      (db, Except.error
        { status_code := 404, detail := "Sender or receiver not found" }) := by
  rcases h with h | h
  · cases hr : findUserByPublicId db req.receiver_public_id <;>
      simp [send_message, h, hr]
  · cases hs : findUserByPublicId db req.sender_public_id <;>
      simp [send_message, h, hs]

/-- C8: unregistering an identity with no registered channel is a no-op:
no error is possible and the registry mapping is unchanged. -/
theorem c8_unregister_noop (conns : List (Nat × Chan)) (uid : Nat)
    (h : dictGet conns uid = none) : disconnect conns uid = conns :=
  dictPop_absent conns uid h

/-- C10: a persisted message whose stored string begins with an opening
brace and parses as JSON is returned parsed by the history query
projection and by the user-list last-message display, for any message
kind tag, so plain text is not always returned as stored. -/
theorem c10_brace_heuristic (db : DB) (m : Message) (s : String) (v : Json)
    (hm : m.message = some s) (hb : startsWithBrace s = true)
    (hl : loads s = some v) :
    (msgOut db m).message = some (Sum.inr v) ∧
    getUsersDisplayMsg (some m) = some (Sum.inr v) ∧
    some (Sum.inr v) ≠ (some (Sum.inl s) : Option (Sum String Json)) := by
  have hsne : ¬ s = "" := by
    intro he
    subst he
    simp [startsWithBrace] at hb
  refine ⟨?_, ?_, by simp⟩
  · simp [msgOut, hm, displayMessage, hb, hl]
  · simp [getUsersDisplayMsg, hm, hsne, hb, hl]

/-- C9: the history query returns exactly the persisted messages between
the two users, in either direction, ordered ascending by creation
timestamp. -/
theorem c9_history_ordered {db : DB} {a b : String} {u c : User}
    (hu : findUserByPublicId db a = some u)
    (hc : findUserByPublicId db b = some c) :
    ∃ l, get_messages db a b = Except.ok l ∧
      l.Perm ((db.messages.filter (betweenPred u.id c.id)).map (msgOut db)) ∧
      List.Pairwise (fun x y : MsgOut => x.created_at ≤ y.created_at) l := by
  have hq : get_messages db a b = Except.ok
      (((db.messages.filter (betweenPred u.id c.id)).insertionSort
        msgLe).map (msgOut db)) := by
    simp [get_messages, hu, hc]
  refine ⟨_, hq, ?_, ?_⟩
  · exact (List.perm_insertionSort msgLe _).map (msgOut db)
  · have hs := List.sorted_insertionSort msgLe
      (db.messages.filter (betweenPred u.id c.id))
    exact List.Pairwise.map (msgOut db) (fun x y h => h) hs

/-- C1: delivering to a live receiver persists exactly one message row
with the right sender and receiver and performs exactly one push on the
registered channel, whose payload serialises to the stored content. -/
theorem c1_deliver_live (db : DB) (conns : List (Nat × Chan))
    (pushOk : Chan → Bool) (req : MessageRequest) (s r : User) (ch : Chan)
    (hs : findUserByPublicId db req.sender_public_id = some s)
    (hr : findUserByPublicId db req.receiver_public_id = some r)
    (hch : dictGet conns r.id = some ch)
    (hpush : pushOk ch = true) :
    ∃ (m : Message) (pm : PushPayload),
      (deliver true pushOk db conns req).db.messages = db.messages ++ [m] ∧
      m.sender_id = s.id ∧
      m.receiver_id = r.id ∧
      m.message = some (storedMessage req.message) ∧
      (deliver true pushOk db conns req).pushes = [(ch, pm)] ∧
      pm.sender_public_id = req.sender_public_id ∧
      pm.receiver_public_id = req.receiver_public_id ∧
      pm.message = req.message ∧
      some (storedMessage pm.message) = m.message ∧
      pm.created_at = m.created_at ∧
      (deliver true pushOk db conns req).outcome = Except.ok () := by
  refine ⟨mkTextMessage db s.id r.id (storedMessage req.message),
    { sender_public_id := req.sender_public_id,
      receiver_public_id := req.receiver_public_id,
      message := req.message, message_type := "text",
      created_at := db.now }, ?_⟩
  simp [deliver, hs, hr, persistMessage, ws_send_message, hch, hpush,
    mkTextMessage]

/-- C2: durable persistence strictly precedes live push: a store failure
surfaces PersistenceFailure with no push and no state change, and every
pushed payload corresponds to a message row recorded by the same call. -/
theorem c2_persistence_first (db : DB) (conns : List (Nat × Chan))
    (pushOk : Chan → Bool) (req : MessageRequest) (s r : User)
    (hs : findUserByPublicId db req.sender_public_id = some s)
    (hr : findUserByPublicId db req.receiver_public_id = some r) :
    deliver false pushOk db conns req =
      { db := db, pushes := [],
        outcome := Except.error DeliverError.persistenceFailure } ∧
    (∀ storeOk : Bool, ∀ p ∈ (deliver storeOk pushOk db conns req).pushes,
      ∃ m ∈ (deliver storeOk pushOk db conns req).db.messages,
        m.sender_id = s.id ∧ m.receiver_id = r.id ∧
        m.message = some (storedMessage p.2.message)) := by
  constructor
  · simp [deliver, hs, hr]
  · intro storeOk p hp
    cases storeOk with
    | false => simp [deliver, hs, hr] at hp
    | true =>
      cases hch : dictGet conns r.id with
      | none => simp [deliver, hs, hr, ws_send_message, hch] at hp
      | some ch =>
        simp only [deliver, hs, hr, ws_send_message, hch, if_true] at hp ⊢
        refine ⟨mkTextMessage db s.id r.id (storedMessage req.message), ?_, ?_, ?_, ?_⟩
        · simp [persistMessage]
        · simp [mkTextMessage]
        · simp [mkTextMessage]
        · rcases List.mem_filter.mp hp with ⟨hpm, _⟩
          simp at hpm
          subst hpm
          simp [mkTextMessage, storedMessage]

/-- C3: when the record is durably persisted and the live push fails on
a stale channel, the failure is swallowed: the deliver call still
reports success, no push is delivered, and the persisted row remains
retrievable via the history query. -/
theorem c3_push_failure_swallowed (db : DB) (conns : List (Nat × Chan))
    (pushOk : Chan → Bool) (req : MessageRequest) (s r : User) (ch : Chan)
    (hs : findUserByPublicId db req.sender_public_id = some s)
    (hr : findUserByPublicId db req.receiver_public_id = some r)
    (hch : dictGet conns r.id = some ch)
    (hfail : pushOk ch = false) :
    (deliver true pushOk db conns req).outcome = Except.ok () ∧
    (deliver true pushOk db conns req).pushes = [] ∧
    ∃ m : Message,
      (deliver true pushOk db conns req).db.messages = db.messages ++ [m] ∧
      ∃ l, get_messages (deliver true pushOk db conns req).db
          req.sender_public_id req.receiver_public_id = Except.ok l ∧
        msgOut (deliver true pushOk db conns req).db m ∈ l := by
  have hdb : (deliver true pushOk db conns req).db
      = persistMessage db (mkTextMessage db s.id r.id
        (storedMessage req.message)) := by
    simp [deliver, hs, hr]
  refine ⟨by simp [deliver, hs, hr], ?_, ?_⟩
  · simp [deliver, hs, hr, ws_send_message, hch, hfail]
  · refine ⟨mkTextMessage db s.id r.id (storedMessage req.message), ?_, ?_⟩
    · rw [hdb]
      simp [persistMessage]
    · rw [hdb]
      have hs' : findUserByPublicId (persistMessage db (mkTextMessage db s.id
          r.id (storedMessage req.message))) req.sender_public_id = some s := by
        simpa [findUserByPublicId, persistMessage] using hs
      have hr' : findUserByPublicId (persistMessage db (mkTextMessage db s.id
          r.id (storedMessage req.message))) req.receiver_public_id = some r := by
        simpa [findUserByPublicId, persistMessage] using hr
      exact get_messages_mem (mkTextMessage db s.id r.id
          (storedMessage req.message)) hs' hr' (by simp [persistMessage])
        (by simp [betweenPred, mkTextMessage])

/-- C4: delivering to a receiver with no registered channel performs no
push, is not an error, persists the same row as it would with any other
registry state, and the row is visible in a subsequent history query. -/
theorem c4_offline_delivery (db : DB) (conns : List (Nat × Chan))
    (pushOk : Chan → Bool) (req : MessageRequest) (s r : User)
    (hs : findUserByPublicId db req.sender_public_id = some s)
    (hr : findUserByPublicId db req.receiver_public_id = some r)
    (hoff : dictGet conns r.id = none) :
    (deliver true pushOk db conns req).pushes = [] ∧
    (deliver true pushOk db conns req).outcome = Except.ok () ∧
    (deliver true pushOk db conns req).db.messages = db.messages ++
      [mkTextMessage db s.id r.id (storedMessage req.message)] ∧
    (∀ conns' : List (Nat × Chan),
      (deliver true pushOk db conns' req).db
        = (deliver true pushOk db conns req).db) ∧
    ∃ l, get_messages (deliver true pushOk db conns req).db
        req.sender_public_id req.receiver_public_id = Except.ok l ∧
      msgOut (deliver true pushOk db conns req).db
        (mkTextMessage db s.id r.id (storedMessage req.message)) ∈ l := by
  have hdb : (deliver true pushOk db conns req).db
      = persistMessage db (mkTextMessage db s.id r.id
        (storedMessage req.message)) := by
    simp [deliver, hs, hr]
  refine ⟨?_, by simp [deliver, hs, hr], ?_, ?_, ?_⟩
  · simp [deliver, hs, hr, ws_send_message, hoff]
  · rw [hdb]
    simp [persistMessage]
  · intro conns'
    simp [deliver, hs, hr]
  · rw [hdb]
    have hs' : findUserByPublicId (persistMessage db (mkTextMessage db s.id
        r.id (storedMessage req.message))) req.sender_public_id = some s := by
      simpa [findUserByPublicId, persistMessage] using hs
    have hr' : findUserByPublicId (persistMessage db (mkTextMessage db s.id
        r.id (storedMessage req.message))) req.receiver_public_id = some r := by
      simpa [findUserByPublicId, persistMessage] using hr
    exact get_messages_mem (mkTextMessage db s.id r.id
        (storedMessage req.message)) hs' hr' (by simp [persistMessage])
      (by simp [betweenPred, mkTextMessage])

/-- C6: a structured payload is serialised to its canonical textual form
for storage and the history query returns it deserialised to a value
equal to the original structured payload. -/
theorem c6_structured_roundtrip (db : DB) (spid rpid : String) (s r : User)
    (d : List (String × Json))
    (hs : findUserByPublicId db spid = some s)
    (hr : findUserByPublicId db rpid = some r) :
    ∃ m : Message,
      (send_message db ⟨spid, rpid, Payload.structured d⟩).1.messages
        = db.messages ++ [m] ∧
      m.message = some (dumps (Json.obj d)) ∧
      ∃ l, get_messages (send_message db ⟨spid, rpid, Payload.structured d⟩).1
          spid rpid = Except.ok l ∧
        msgOut (send_message db ⟨spid, rpid, Payload.structured d⟩).1 m ∈ l ∧
        (msgOut (send_message db ⟨spid, rpid, Payload.structured d⟩).1 m).message
          = some (Sum.inr (Json.obj d)) := by
  have hdb : (send_message db ⟨spid, rpid, Payload.structured d⟩).1
      = persistMessage db (mkTextMessage db s.id r.id
        (storedMessage (Payload.structured d))) := by
    simp [send_message, hs, hr]
  refine ⟨mkTextMessage db s.id r.id (storedMessage (Payload.structured d)),
    ?_, ?_, ?_⟩
  · rw [hdb]
    simp [persistMessage]
  · simp [mkTextMessage, storedMessage]
  · rw [hdb]
    have hs' : findUserByPublicId (persistMessage db (mkTextMessage db s.id
        r.id (storedMessage (Payload.structured d)))) spid = some s := by
      simpa [findUserByPublicId, persistMessage] using hs
    have hr' : findUserByPublicId (persistMessage db (mkTextMessage db s.id
        r.id (storedMessage (Payload.structured d)))) rpid = some r := by
      simpa [findUserByPublicId, persistMessage] using hr
    obtain ⟨l, hq, hmem⟩ := get_messages_mem (mkTextMessage db s.id r.id
        (storedMessage (Payload.structured d))) hs' hr'
      (by simp [persistMessage]) (by simp [betweenPred, mkTextMessage])
    refine ⟨l, hq, hmem, ?_⟩
    simp [msgOut, mkTextMessage, storedMessage, displayMessage_dumps_obj]

/-!
Witness theorems.
-/

/-- Witness for C1 at the concrete fixtures. -/
theorem c1_deliver_live_witness :
    (deliver true (fun _ => true) wDb wConns wReqText).outcome
      = Except.ok () ∧
    (deliver true (fun _ => true) wDb wConns wReqText).pushes.length = 1 ∧
    (deliver true (fun _ => true) wDb wConns wReqText).db.messages.length
      = 1 := by
  obtain ⟨m, pm, h1, h2, h3, h4, h5, h6, h7, h8, h9, h10, h11⟩ :=
    c1_deliver_live wDb wConns (fun _ => true) wReqText wAlice wBob 7
      rfl rfl rfl rfl
  refine ⟨h11, ?_, ?_⟩
  · rw [h5]
    rfl
  · rw [h1]
    rfl

/-- Witness for C2 at the concrete fixtures. -/
theorem c2_persistence_first_witness :
    deliver false (fun _ => true) wDb wConns wReqText =
      { db := wDb, pushes := [],
        outcome := Except.error DeliverError.persistenceFailure } :=
  (c2_persistence_first wDb wConns (fun _ => true) wReqText wAlice wBob
    rfl rfl).1

/-- Witness for C3 at the concrete fixtures; the single registered
channel is stale, so every push fails. -/
theorem c3_push_failure_swallowed_witness :
    (deliver true (fun _ => false) wDb wConns wReqText).outcome
      = Except.ok () ∧
    (deliver true (fun _ => false) wDb wConns wReqText).pushes = [] ∧
    (deliver true (fun _ => false) wDb wConns wReqText).db.messages.length
      = 1 := by
  obtain ⟨h1, h2, m, h3, _⟩ :=
    c3_push_failure_swallowed wDb wConns (fun _ => false) wReqText wAlice
      wBob 7 rfl rfl rfl rfl
  refine ⟨h1, h2, ?_⟩
  rw [h3]
  rfl

/-- Witness for C4 at the concrete fixtures with an empty registry. -/
theorem c4_offline_delivery_witness :
    (deliver true (fun _ => true) wDb [] wReqText).pushes = [] ∧
    (deliver true (fun _ => true) wDb [] wReqText).outcome = Except.ok () ∧
    (deliver true (fun _ => true) wDb [] wReqText).db.messages.length = 1 := by
  obtain ⟨h1, h2, h3, _⟩ :=
    c4_offline_delivery wDb [] (fun _ => true) wReqText wAlice wBob
      rfl rfl rfl
  refine ⟨h1, h2, ?_⟩
  rw [h3]
  rfl

/-- Witness for C5 at the concrete fixtures: channels 7 then 8 for
user 1. -/
theorem c5_register_replaces_witness :
    dictGet (connect (connect [] 1 7) 1 8) 1 = some 8 ∧
    ws_send_message (connect (connect [] 1 7) 1 8) 1 "ping" = [(8, "ping")] ∧
    ((7 : Chan), "ping") ∉ ws_send_message (connect (connect [] 1 7) 1 8) 1
      "ping" :=
  c5_register_replaces [] 1 7 8 "ping" (by decide)

/-- Witness for C6 at the concrete fixtures: the structured payload with
one field a mapped to one. -/
theorem c6_structured_roundtrip_witness :
    ((send_message wDb
        { sender_public_id := "u-1", receiver_public_id := "u-2",
          message := Payload.structured [("a", Json.num 1)] }).1.messages.map
      (fun m => (msgOut (send_message wDb
        { sender_public_id := "u-1", receiver_public_id := "u-2",
          message := Payload.structured [("a", Json.num 1)] }).1 m).message))
      = [some (Sum.inr (Json.obj [("a", Json.num 1)]))] := by
  obtain ⟨m, h1, h2, l, hq, hmem, hdisp⟩ :=
    c6_structured_roundtrip wDb "u-1" "u-2" wAlice wBob
      [("a", Json.num 1)] rfl rfl
  rw [h1]
  simp only [show wDb.messages = ([] : List Message) from rfl,
    List.nil_append, List.map_cons, List.map_nil]
  rw [hdisp]

/-- Witness for C7 at the concrete fixtures: unknown sender u-9. -/
theorem c7_unknown_participant_witness :
    send_message wDb
      { sender_public_id := "u-9", receiver_public_id := "u-2",
        message := Payload.text "hi" } =
      (wDb, Except.error
        { status_code := 404, detail := "Sender or receiver not found" }) :=
  c7_unknown_participant wDb
    { sender_public_id := "u-9", receiver_public_id := "u-2",
      message := Payload.text "hi" }
    (Or.inl rfl)

/-- Witness for C8 at the concrete fixtures: user 1 has no channel. -/
theorem c8_unregister_noop_witness : disconnect wConns 1 = wConns :=
  c8_unregister_noop wConns 1 rfl

/-- Witness for C9 at the concrete fixtures. -/
theorem c9_history_ordered_witness :
    ∃ l, get_messages wDb "u-1" "u-2" = Except.ok l ∧
      List.Pairwise (fun x y : MsgOut => x.created_at ≤ y.created_at) l := by
  obtain ⟨l, hq, _, hsort⟩ := c9_history_ordered
    (rfl : findUserByPublicId wDb "u-1" = some wAlice)
    (rfl : findUserByPublicId wDb "u-2" = some wBob)
  exact ⟨l, hq, hsort⟩

/-- Witness for C10 at the concrete fixtures: a stored text row whose
content is a JSON document. -/
theorem c10_brace_heuristic_witness :
    (msgOut wDb wMsgJson).message
      = some (Sum.inr (Json.obj [("a", Json.num 1)])) ∧
    getUsersDisplayMsg (some wMsgJson)
      = some (Sum.inr (Json.obj [("a", Json.num 1)])) ∧
    some (Sum.inr (Json.obj [("a", Json.num 1)]))
      ≠ (some (Sum.inl "\x7b\"a\": 1\x7d") : Option (Sum String Json)) :=
  c10_brace_heuristic wDb wMsgJson "\x7b\"a\": 1\x7d"
    (Json.obj [("a", Json.num 1)]) rfl rfl rfl
